import Mathlib

/-!
Verification of the tetris blockMesh-description library.

The development shallowly embeds the core data model and operations of the
repository: the coordinate primitive and the mathematical helpers of
`tetris/utils.py`, the legacy element model of `tetris/elements.py`
(`Edge.points` setter, `Block.set_cell_size`), the current
`tetris/blockmesh/` element model (`Vertex`, the `Edge` variants, `Block`),
and the registry of `tetris/mesh.py` (`Mesh.add_vertex`, `add_edge`,
`add_block`, `add_patch`, `add_mergePatchPairs`).

Machine floats are modelled by exact rationals; the real-valued square root
used by `normL2` is modelled by `Real.sqrt`.  Mutable Python objects are
modelled by explicit state passing; object identity (where it matters, in
the mesh registry) is modelled by references into a store.
-/

namespace Tetris

/-- A three-component coordinate (a numpy array of shape `(3,)`), with exact
rational components in place of machine floats. -/
structure Vec3 where
  x : ℚ
  y : ℚ
  z : ℚ
deriving DecidableEq

instance : Inhabited Vec3 := ⟨⟨0, 0, 0⟩⟩

/-- The all-zero vector. -/
def Vec3.zero : Vec3 := ⟨0, 0, 0⟩

/-- Componentwise addition (numpy `+` on shape-(3,) arrays). -/
def Vec3.add (a b : Vec3) : Vec3 := ⟨a.x + b.x, a.y + b.y, a.z + b.z⟩

/-- Componentwise subtraction (numpy `-` on shape-(3,) arrays). -/
def Vec3.sub (a b : Vec3) : Vec3 := ⟨a.x - b.x, a.y - b.y, a.z - b.z⟩

/-- The 3-dimensional cross product (`np.cross` on two shape-(3,) arrays). -/
def Vec3.cross (a b : Vec3) : Vec3 :=
  ⟨a.y * b.z - a.z * b.y, a.z * b.x - a.x * b.z, a.x * b.y - a.y * b.x⟩

/-- Sum of the three components (`ndarray.sum()` on a shape-(3,) array). -/
def Vec3.csum (a : Vec3) : ℚ := a.x + a.y + a.z

/-- Sum of the squared components. -/
def Vec3.normSq (a : Vec3) : ℚ := a.x * a.x + a.y * a.y + a.z * a.z

/-! ## `tetris/utils.py` -/

/-- Source `tetris/utils.py`, `is_collinear(v0, v1, v2)`: computes
`a = (v0 - v1).coords`, `b = (v0 - v2).coords` and returns
`np.cross(a, b).sum() == 0` — the test is on the *sum of the components* of
the cross product, not on the cross product being the zero vector. -/
def is_collinear (v0 v1 v2 : Vec3) : Bool :=
  ((v0.sub v1).cross (v0.sub v2)).csum == 0

/-- Source `tetris/utils.py`, `normL2(array)` on a single shape-(3,) vector:
`np.linalg.norm`, i.e. the square root of the sum of squared components. -/
noncomputable def normL2 (v : Vec3) : ℝ := Real.sqrt ((v.normSq : ℚ) : ℝ)

/-- Source `tetris/utils.py`, `distance(point1, point2)`: the source returns
`normL2(p1 + p2)` — the norm of the *sum* of the two coordinate arrays. -/
noncomputable def distance (p1 p2 : Vec3) : ℝ := normL2 (p1.add p2)

/-- The Euclidean distance between two points, `normL2(p1 - p2)` — what the
docstring of `distance` ("Calculate the distance between two points") and the
earlier snapshot `src/src/tetris/utils/math.py` describe. -/
noncomputable def euclideanDistance (p1 p2 : Vec3) : ℝ := normL2 (p1.sub p2)

/-- Source `tetris/utils.py`, `ncells_simple(cell_size, edge_length)`:
`int(np.ceil(edge_length / cell_size))`. -/
noncomputable def ncells_simple (cell_size edge_length : ℝ) : ℤ :=
  ⌈edge_length / cell_size⌉

/-! ## `tetris/elements.py`: the legacy `Edge` -/

/-- Source `tetris/elements.py`, class `Edge`: two endpoint coordinates, a list of
interior points, and a type tag (`None` denotes an implicit straight line). -/
structure EEdge where
  v0 : Vec3
  v1 : Vec3
  points : List Vec3
  type : Option String
deriving DecidableEq

/-- Helper for `toDelete`: walks the augmented list keeping the index `i` of
the first element of the current triple. -/
def toDeleteAux : ℕ → List Vec3 → List ℕ
  | i, a :: b :: c :: rest =>
      (if is_collinear a b c then [i + 1] else []) ++ toDeleteAux (i + 1) (b :: c :: rest)
  | _, _ => []

/-- The marked indices of the `Edge.points` setter: for every consecutive
triple `(prev, cur, next)` of the endpoint-augmented list (Python:
`zip(points[0:-2], points[1:-1], points[2:])`), if the triple passes
`is_collinear` the index of `cur` (`i + 1`) is recorded in `to_delete`. -/
def toDelete (aug : List Vec3) : List ℕ := toDeleteAux 0 aug

/-- Helper for `npDelete`: keeps the current position `i`. -/
def npDeleteAux (dels : List ℕ) : ℕ → List Vec3 → List Vec3
  | _, [] => []
  | i, a :: rest =>
      (if i ∈ dels then [] else [a]) ++ npDeleteAux dels (i + 1) rest

/-- Source `np.delete(l, dels, axis=0)`: the list `l` with the entries at the
positions listed in `dels` removed (a fresh array; the input is unchanged). -/
def npDelete (l : List Vec3) (dels : List ℕ) : List Vec3 :=
  npDeleteAux dels 0 l

/-- Source `tetris/elements.py`, the `Edge.points` setter (lines 209-264).
An empty points list resets `type` to `None` and returns early.  Otherwise
the endpoints are prepended/appended, collinear interior points are marked
in `to_delete`, and then the source evaluates
`np.delete(points, to_delete, axis=0)` *without assigning the result*
(line 253), so the augmented list is used unmodified; `points[1:-1]` then
strips the two injected endpoints again.  The trailing emptiness check can
therefore only see an empty list if the input was empty. -/
def points_setter (e : EEdge) (ps : List Vec3) : EEdge :=
  if ps.isEmpty then { e with points := [], type := none }
  else
    let aug := e.v0 :: (ps ++ [e.v1])
    let dels := toDelete aug
    let _discarded := npDelete aug dels
    let newPoints := (aug.drop 1).dropLast
    { e with points := newPoints,
             type := if newPoints.isEmpty then none else e.type }

/-- The setter behaviour the spec describes (claim side, for comparison with
`points_setter`): remove every marked interior point in one pass, drop the two
injected endpoints, and reclassify as an implicit straight line (`type None`)
when nothing remains. -/
def simplifiedSetter (e : EEdge) (ps : List Vec3) : EEdge :=
  if ps.isEmpty then { e with points := [], type := none }
  else
    let aug := e.v0 :: (ps ++ [e.v1])
    let newPoints := ((npDelete aug (toDelete aug)).drop 1).dropLast
    { e with points := newPoints,
             type := if newPoints.isEmpty then none else e.type }

/-- Concrete edge for exercising the `points` setter: endpoints `(0,0,0)` and
`(2,0,0)`, declared type `spline`. -/
def c2Edge : EEdge := ⟨⟨0, 0, 0⟩, ⟨2, 0, 0⟩, [], some "spline"⟩

/-! ## `tetris/elements.py`: the legacy `Block` (cell sizing) -/

/-- Source `tetris/elements.py`, class `Block` — the fields `set_cell_size` touches:
the 8 corner points and the per-axis cell counts. -/
structure EBlock where
  vertices : List Vec3
  ncells : ℤ × ℤ × ℤ

/-- Source `tetris/elements.py`, `Block.set_cell_size(value)` with `axis=None`:
sets `ncells` to `ncells_simple(value, distance(vertices[0], vertices[k]))`
for `k = 1, 3, 4` (the first representative edge of each axis). -/
noncomputable def set_cell_size (b : EBlock) (value : ℝ) : EBlock :=
  { b with ncells :=
      (ncells_simple value (distance (b.vertices.getD 0 default) (b.vertices.getD 1 default)),
       ncells_simple value (distance (b.vertices.getD 0 default) (b.vertices.getD 3 default)),
       ncells_simple value (distance (b.vertices.getD 0 default) (b.vertices.getD 4 default))) }

/-- Concrete block for exercising `set_cell_size`: vertex 0 is `(6,0,0)` and
the axis partners 1, 3, 4 are `(6,3,4)`, `(6,4,3)`, `(6,0,5)`, so every axis
edge has Euclidean length 5 while `distance` (the norm of the coordinate
*sum*) returns 13 on each pair. -/
def c5Block : EBlock :=
  ⟨[⟨6, 0, 0⟩, ⟨6, 3, 4⟩, ⟨7, 0, 0⟩, ⟨6, 4, 3⟩, ⟨6, 0, 5⟩,
    ⟨8, 0, 0⟩, ⟨9, 0, 0⟩, ⟨10, 0, 0⟩], (1, 1, 1)⟩

/-! ## `tetris/blockmesh/vertex.py` and `tetris/typing.py` -/

/-- Source `tetris/blockmesh/vertex.py`, class `Vertex`: a coordinate array plus the
`id` attribute contributed by `BlockMeshElement.__init_subclass__`
(`tetris/typing.py`), which initialises `id` to the unset sentinel `-1` on
every subclass, so a freshly constructed element reads `id = -1`. -/
structure VertexB where
  coords : Vec3
  id : ℤ
deriving DecidableEq

instance : Inhabited VertexB := ⟨⟨Vec3.zero, -1⟩⟩

/-- A value accepted where the source takes `Union[Vector, int, float]`. -/
inductive Arg
  | scalar (q : ℚ)
  | vec (v : Vec3)

/-- Modelled from the spec: `tetris.utils.to_array` is called by
`Vertex.translate_` and the `Vertex` operators but is defined nowhere under
`src/`; per the spec's data model (a point is a fixed 3-component coordinate,
translation accepts a vector) it converts its argument to a 3-component
array, broadcasting a scalar to all three components (as the leftover helper
`vertex_or_array` in `tetris/utils.py` does). -/
def to_array : Arg → Vec3
  | .scalar q => ⟨q, q, q⟩
  | .vec v => v

/-- Source `Vertex(...)`: a new vertex carries the class-default identity `-1`. -/
def mkVertexB (c : Vec3) : VertexB := ⟨c, -1⟩

/-- Source `Vertex.__eq__`: `all(self.coords == tetris.utils.to_array(other))` —
structural equality of the coordinates; identities are not compared. -/
def vertexEq (a b : VertexB) : Bool := a.coords == b.coords

/-- Source `Vertex.__add__`: builds a *fresh* `Vertex` from the summed coordinates;
the fresh object reads the class-default identity `-1`. -/
def vertexAdd (v : VertexB) (other : Arg) : VertexB :=
  mkVertexB (v.coords.add (to_array other))

/-- Source `Vertex.translate_(vector)`: the in-place update
`self.coords += to_array(vector)`; the result is the receiver's new state. -/
def translate_ (v : VertexB) (vector : Arg) : VertexB :=
  { v with coords := v.coords.add (to_array vector) }

/-- Source `Vertex.translate(vector)`: `vertex = self + 0`, then
`vertex.translate_(vector)`, then `return vertex`.  The receiver is never
assigned to, so the call is modelled as the pair
(receiver state after the call, returned vertex). -/
def translate (v : VertexB) (vector : Arg) : VertexB × VertexB :=
  (v, translate_ (vertexAdd v (.scalar 0)) vector)

/-! ## `tetris/blockmesh/edge.py` -/

/-- The `ValueError` message of `Edge.__init__` for coincident endpoints. -/
def zeroLengthMsg : String :=
  "Zero-length edge. Vertices are at the same point in space."

/-- The edge variants of `tetris/blockmesh/edge.py`: `LineEdge`,
`ArcMidEdge`, `ArcOriginEdge`, the three `SequenceEdge` flavours
(`SplineEdge`, `BSplineEdge`, `PolyLineEdge`) and `ProjectEdge` (whose
geometry surfaces are represented here by their names). -/
inductive BEdge
  | line (v0 v1 : VertexB)
  | arcMid (v0 v1 : VertexB) (point : Vec3)
  | arcOrigin (v0 v1 : VertexB) (origin : Vec3) (factor : ℚ)
  | spline (v0 v1 : VertexB) (points : List Vec3)
  | bSpline (v0 v1 : VertexB) (points : List Vec3)
  | polyLine (v0 v1 : VertexB) (points : List Vec3)
  | project (v0 v1 : VertexB) (surfaces : List String)
deriving DecidableEq

/-- The first endpoint (`self.v0`). -/
def BEdge.fst : BEdge → VertexB
  | .line a _ | .arcMid a _ _ | .arcOrigin a _ _ _ | .spline a _ _
  | .bSpline a _ _ | .polyLine a _ _ | .project a _ _ => a

/-- The second endpoint (`self.v1`). -/
def BEdge.snd : BEdge → VertexB
  | .line _ b | .arcMid _ b _ | .arcOrigin _ b _ _ | .spline _ b _
  | .bSpline _ b _ | .polyLine _ b _ | .project _ b _ => b

/-- The interior point sequence: the `points` attribute of the
`SequenceEdge` flavours; the other variants carry none. -/
def BEdge.interior : BEdge → List Vec3
  | .spline _ _ ps | .bSpline _ _ ps | .polyLine _ _ ps => ps
  | _ => []

/-- The `type` property of each variant. -/
def BEdge.etype : BEdge → String
  | .line _ _ => "line"
  | .arcMid _ _ _ | .arcOrigin _ _ _ _ => "arc"
  | .spline _ _ _ => "spline"
  | .bSpline _ _ _ => "BSpline"
  | .polyLine _ _ _ => "polyLine"
  | .project _ _ _ => "project"

/-- Source `Edge.__init__`: raises `ValueError` when the endpoints compare equal
(`v0 == v1`, structural coordinate equality). -/
def edgeGuard (v0 v1 : VertexB) : Except String Unit :=
  if vertexEq v0 v1 then .error zeroLengthMsg else .ok ()

/-- Source `LineEdge(v0, v1)`. -/
def mkLine (v0 v1 : VertexB) : Except String BEdge :=
  match edgeGuard v0 v1 with
  | .error msg => .error msg
  | .ok _ => .ok (.line v0 v1)

/-- Source `ArcMidEdge(v0, v1, point)`. -/
def mkArcMid (v0 v1 : VertexB) (point : Vec3) : Except String BEdge :=
  match edgeGuard v0 v1 with
  | .error msg => .error msg
  | .ok _ => .ok (.arcMid v0 v1 point)

/-- Source `ArcOriginEdge(v0, v1, origin, factor)`. -/
def mkArcOrigin (v0 v1 : VertexB) (origin : Vec3) (factor : ℚ) :
    Except String BEdge :=
  match edgeGuard v0 v1 with
  | .error msg => .error msg
  | .ok _ => .ok (.arcOrigin v0 v1 origin factor)

/-- Source `SplineEdge(v0, v1, points)`. -/
def mkSpline (v0 v1 : VertexB) (points : List Vec3) : Except String BEdge :=
  match edgeGuard v0 v1 with
  | .error msg => .error msg
  | .ok _ => .ok (.spline v0 v1 points)

/-- Source `BSplineEdge(v0, v1, points)`. -/
def mkBSpline (v0 v1 : VertexB) (points : List Vec3) : Except String BEdge :=
  match edgeGuard v0 v1 with
  | .error msg => .error msg
  | .ok _ => .ok (.bSpline v0 v1 points)

/-- Source `PolyLineEdge(v0, v1, points)`. -/
def mkPolyLine (v0 v1 : VertexB) (points : List Vec3) : Except String BEdge :=
  match edgeGuard v0 v1 with
  | .error msg => .error msg
  | .ok _ => .ok (.polyLine v0 v1 points)

/-- Source `ProjectEdge(v0, v1, surfaces)`. -/
def mkProject (v0 v1 : VertexB) (surfaces : List String) :
    Except String BEdge :=
  match edgeGuard v0 v1 with
  | .error msg => .error msg
  | .ok _ => .ok (.project v0 v1 surfaces)

/-- Source `invert()` of each variant: a fresh edge of the same class with swapped
endpoints (the `SequenceEdge` flavours pass `self.points[::-1]`, reversing
the interior sequence); the class constructor re-runs the zero-length
check. -/
def invert : BEdge → Except String BEdge
  | .line v0 v1 => mkLine v1 v0
  | .arcMid v0 v1 p => mkArcMid v1 v0 p
  | .arcOrigin v0 v1 o f => mkArcOrigin v1 v0 o f
  | .spline v0 v1 ps => mkSpline v1 v0 ps.reverse
  | .bSpline v0 v1 ps => mkBSpline v1 v0 ps.reverse
  | .polyLine v0 v1 ps => mkPolyLine v1 v0 ps.reverse
  | .project v0 v1 s => mkProject v1 v0 s

/-- The value `invert()` produces when the zero-length guard passes: swapped
endpoints, reversed interior sequence, all other data unchanged. -/
def invertResult : BEdge → BEdge
  | .line v0 v1 => .line v1 v0
  | .arcMid v0 v1 p => .arcMid v1 v0 p
  | .arcOrigin v0 v1 o f => .arcOrigin v1 v0 o f
  | .spline v0 v1 ps => .spline v1 v0 ps.reverse
  | .bSpline v0 v1 ps => .bSpline v1 v0 ps.reverse
  | .polyLine v0 v1 ps => .polyLine v1 v0 ps.reverse
  | .project v0 v1 s => .project v1 v0 s

/-! ## `tetris/constants.py` and `tetris/blockmesh/block.py` -/

/-- Source `tetris/constants.py`, `BLOCK_EDGES`: the 12 local corner-index pairs,
grouped four per principal axis. -/
def BLOCK_EDGES : List (ℕ × ℕ) :=
  [(0, 1), (2, 3), (6, 7), (4, 5),
   (0, 3), (1, 2), (5, 6), (4, 7),
   (0, 4), (1, 5), (2, 6), (3, 7)]

/-- Source `tetris/blockmesh/block.py`, class `Block` (the fields the claims
touch). -/
structure BlockB where
  vertices : List VertexB
  edges : List BEdge
  grading : List ℚ
  gradingType : String
  ncells : List ℤ
  cellZone : String
deriving DecidableEq

/-- Source `Block.__init__`: empty vertex/edge lists, grading `[1, 1, 1]` (which the
setter classifies as `simple`), `ncells = [1, 1, 1]`, empty cell zone. -/
def blockInit : BlockB := ⟨[], [], [1, 1, 1], "simple", [1, 1, 1], ""⟩

/-- The `ValueError` message of the grading setter (as in the source, where
two adjacent string literals concatenate without a space). -/
def gradingErrMsg : String :=
  "The number of elements defining the grading must beeither 3 (simpleGrading) or 12 (edgeGrading)"

/-- Source `Block.grading` setter: a 3-element value selects `simple` grading, a
12-element value selects `edge` grading, anything else raises `ValueError`
before any field is written. -/
def grading_setter (b : BlockB) (value : List ℚ) : Except String BlockB :=
  if value.length = 3 then
    .ok { b with grading := value, gradingType := "simple" }
  else if value.length = 12 then
    .ok { b with grading := value, gradingType := "edge" }
  else
    .error gradingErrMsg

/-- The `ValueError` message of `Block.set_vertices` for a wrong count. -/
def vertexCountMsg : String := "Incorrect number of vertices. Expected 8"

/-- The list comprehension
`[LineEdge(vertices[v0], vertices[v1]) for v0, v1 in BLOCK_EDGES]`:
constructs a `LineEdge` per table entry, propagating the first
constructor failure. -/
def mkLines (vs : List VertexB) : List (ℕ × ℕ) → Except String (List BEdge)
  | [] => .ok []
  | p :: rest =>
      match mkLine (vs.getD p.1 default) (vs.getD p.2 default) with
      | .error msg => .error msg
      | .ok e =>
          match mkLines vs rest with
          | .error msg => .error msg
          | .ok es => .ok (e :: es)

/-- Source `Block.set_vertices(vertices)`: rejects any count other than 8, then
replaces the vertex list and regenerates the 12 edges as straight lines from
`BLOCK_EDGES`. -/
def set_vertices (b : BlockB) (vs : List VertexB) : Except String BlockB :=
  if vs.length ≠ 8 then .error vertexCountMsg
  else
    match mkLines vs BLOCK_EDGES with
    | .error msg => .error msg
    | .ok edges => .ok { b with vertices := vs, edges := edges }

/-- The unit-cube corners in the blockMesh labelling order. -/
def cube8 : List VertexB :=
  [mkVertexB ⟨0, 0, 0⟩, mkVertexB ⟨1, 0, 0⟩, mkVertexB ⟨1, 1, 0⟩,
   mkVertexB ⟨0, 1, 0⟩, mkVertexB ⟨0, 0, 1⟩, mkVertexB ⟨1, 0, 1⟩,
   mkVertexB ⟨1, 1, 1⟩, mkVertexB ⟨0, 1, 1⟩]

/-- Concrete spline edge with two interior points. -/
def c9Edge : BEdge :=
  .spline (mkVertexB ⟨0, 0, 0⟩) (mkVertexB ⟨1, 0, 0⟩) [⟨5, 5, 5⟩, ⟨7, 7, 7⟩]

/-! ## `tetris/mesh.py`: the mesh registry

Mutable Python objects are modelled by references (`Ref`) into an immutable
object graph (`kind`, `edgeData`, `blockData`) plus one mutable `id`
attribute per object (`objId`); re-registration semantics in the source
depend on this attribute, which a mesh assigns at most once. -/

/-- A reference to a Python object; two equal references denote the same
object. -/
abbrev Ref := ℕ

/-- The runtime class of an object, as `isinstance` sees it. -/
inductive Kind
  | vertex
  | edge
  | block
  | patch
  | geometry
deriving DecidableEq

/-- The attributes of an edge object read by `Mesh.add_edge`: the two
endpoint vertex objects and the `type` property.  `none` models a `type`
attribute that is Python `None`; every concrete class of
`tetris/blockmesh/edge.py` returns a string — `LineEdge.type` is `"line"`. -/
structure EdgeObj where
  v0 : Ref
  v1 : Ref
  type : Option String

/-- The attributes of a block object iterated by `Mesh.add_block`: its
vertex list and its edge list. -/
structure BlockObj where
  vertices : List Ref
  edges : List Ref

/-- The mutable state of one `Mesh` together with the `id` attribute of
every element object (`objId`; `-1` until some mesh assigns it).  The four
counters are the entries of `Mesh.ids`; the lists are the mesh collections
in insertion order.  The immutable object graph — each object's class and
the attributes the registry reads — is passed to the operations as `kind`,
`edgeData` and `blockData`. -/
structure MeshState where
  objId : Ref → ℤ
  idsVertex : ℤ
  idsBlock : ℤ
  idsPatch : ℤ
  idsEdge : ℤ
  vertices : List Ref
  edges : List Ref
  blocks : List Ref
  patches : List Ref
  mergePatchPairs : List (Ref × Ref)

/-- Assignment to one object's `id` attribute. -/
def setId (f : Ref → ℤ) (r : Ref) (v : ℤ) : Ref → ℤ :=
  fun x => if x = r then v else f x

/-- Source `Mesh.add_vertex(vertex)`: if the object's `id` is negative, append it
to `self.vertices`, assign it the current vertex counter, and advance the
counter; otherwise do nothing. -/
def add_vertex (s : MeshState) (v : Ref) : MeshState :=
  if s.objId v < 0 then
    { s with vertices := s.vertices ++ [v],
             objId := setId s.objId v s.idsVertex,
             idsVertex := s.idsVertex + 1 }
  else s

/-- Source `Mesh.add_edge(edge)`: returns immediately when the edge's `type`
attribute is `None`; otherwise registers both endpoints via `add_vertex`
and then — if the edge's `id` is still negative — appends the edge, assigns
it the edge counter, and advances the counter. -/
def add_edge (edgeData : Ref → EdgeObj) (s : MeshState) (e : Ref) : MeshState :=
  if (edgeData e).type = none then s
  else
    let s1 := add_vertex s (edgeData e).v0
    let s2 := add_vertex s1 (edgeData e).v1
    if s2.objId e < 0 then
      { s2 with edges := s2.edges ++ [e],
                objId := setId s2.objId e s2.idsEdge,
                idsEdge := s2.idsEdge + 1 }
    else s2

/-- The `TypeError` message of `Mesh.add_block`
(`f"{block} is not a valid block."`). -/
def blockTypeMsg (b : Ref) : String := toString b ++ " is not a valid block."

/-- Source `Mesh.add_block(block)`: raises `TypeError` for a non-`Block` argument
before touching any collection; otherwise registers the block's vertices,
then its edges (transitively registering their endpoints), then — if the
block's `id` is still negative — appends the block and assigns the next
block id. -/
def add_block (kind : Ref → Kind) (edgeData : Ref → EdgeObj)
    (blockData : Ref → BlockObj) (s : MeshState) (b : Ref) :
    Except String MeshState :=
  if kind b ≠ Kind.block then .error (blockTypeMsg b)
  else
    let s1 := (blockData b).vertices.foldl add_vertex s
    let s2 := (blockData b).edges.foldl (add_edge edgeData) s1
    .ok (if s2.objId b < 0 then
      { s2 with blocks := s2.blocks ++ [b],
                objId := setId s2.objId b s2.idsBlock,
                idsBlock := s2.idsBlock + 1 }
    else s2)

/-- Source `Mesh.add_patch(patch)`: *no* type validation is performed — any object
whose `id` attribute is negative is appended to `self.patches` and assigned
the next patch id, whatever its class. -/
def add_patch (s : MeshState) (p : Ref) : MeshState :=
  if s.objId p < 0 then
    { s with patches := s.patches ++ [p],
             objId := setId s.objId p s.idsPatch,
             idsPatch := s.idsPatch + 1 }
  else s

/-- Source `Mesh.add_mergePatchPairs(master, slave)`: registers both patches via
`add_patch`, then always appends a new `(master, slave)` pair. -/
def add_mergePatchPairs (s : MeshState) (master slave : Ref) : MeshState :=
  let s1 := add_patch s master
  let s2 := add_patch s1 slave
  { s2 with mergePatchPairs := s2.mergePatchPairs ++ [(master, slave)] }

/-- The edge entries `Mesh._render` passes to the template:
`[edge for edge in self.edges if edge.type != "line"]` — registered edges of
type `"line"` never appear in the rendered edges section. -/
def renderEdges (edgeData : Ref → EdgeObj) (s : MeshState) : List Ref :=
  s.edges.filter (fun e => (edgeData e).type != some "line")

/-- One registration call on the mesh. -/
inductive Op
  | addVertex (v : Ref)
  | addEdge (e : Ref)
  | addBlock (b : Ref)
  | addPatch (p : Ref)
  | addMergePatchPairs (master slave : Ref)

/-- Apply one call.  A raised `TypeError` (`add_block` on a non-block)
aborts the call with the mesh unchanged, so the states reachable with this
semantics are exactly the states reachable by call sequences in Python. -/
def applyOp (kind : Ref → Kind) (edgeData : Ref → EdgeObj)
    (blockData : Ref → BlockObj) (s : MeshState) : Op → MeshState
  | .addVertex v => add_vertex s v
  | .addEdge e => add_edge edgeData s e
  | .addBlock b =>
      match add_block kind edgeData blockData s b with
      | .ok s2 => s2
      | .error _ => s
  | .addPatch p => add_patch s p
  | .addMergePatchPairs m sl => add_mergePatchPairs s m sl

/-- A sequence of registration calls. -/
def run (kind : Ref → Kind) (edgeData : Ref → EdgeObj)
    (blockData : Ref → BlockObj) (s : MeshState) (ops : List Op) : MeshState :=
  ops.foldl (applyOp kind edgeData blockData) s

/-- Source `Mesh.__init__`: all counters 0, every collection empty; every element
object of the program still carries the detached sentinel `id = -1`. -/
def meshInit : MeshState :=
  ⟨fun _ => -1, 0, 0, 0, 0, [], [], [], [], []⟩

/-- The identity sequence `0, 1, ..., n-1` a per-category counter
produces. -/
def intRange (n : ℕ) : List ℤ := (List.range n).map (fun k : ℕ => (k : ℤ))

/-- The registry invariant: every per-category counter equals its list's
length, every list's identities are exactly `0 .. length-1` in insertion
order, and every registered edge — and every member of a registered block —
already carries a non-negative identity. -/
def Inv (edgeData : Ref → EdgeObj) (blockData : Ref → BlockObj)
    (s : MeshState) : Prop :=
  s.idsVertex = (s.vertices.length : ℤ)
  ∧ s.vertices.map s.objId = intRange s.vertices.length
  ∧ s.idsEdge = (s.edges.length : ℤ)
  ∧ s.edges.map s.objId = intRange s.edges.length
  ∧ s.idsBlock = (s.blocks.length : ℤ)
  ∧ s.blocks.map s.objId = intRange s.blocks.length
  ∧ s.idsPatch = (s.patches.length : ℤ)
  ∧ s.patches.map s.objId = intRange s.patches.length
  ∧ (∀ e ∈ s.edges,
      0 ≤ s.objId (edgeData e).v0 ∧ 0 ≤ s.objId (edgeData e).v1)
  ∧ (∀ b ∈ s.blocks,
      (∀ v ∈ (blockData b).vertices, 0 ≤ s.objId v)
      ∧ (∀ e ∈ (blockData b).edges, (edgeData e).type ≠ none →
          0 ≤ s.objId e
          ∧ 0 ≤ s.objId (edgeData e).v0 ∧ 0 ≤ s.objId (edgeData e).v1))

/-- Object graph for the C1 counterexample: object 0 is a `LineEdge`
(its `type` property is the string `"line"`), its endpoints are the vertex
objects 1 and 2. -/
def c1Kind : Ref → Kind := fun r => if r = 0 then Kind.edge else Kind.vertex

/-- Edge attributes of the C1 counterexample graph. -/
def c1EdgeData : Ref → EdgeObj := fun _ => ⟨1, 2, some "line"⟩

/-- Block attributes of the counterexample graphs (no blocks). -/
def c1BlockData : Ref → BlockObj := fun _ => ⟨[], []⟩

/-- Edge attributes for the witness of the no-op direction: every edge
object has `type = None`. -/
def c1bEdgeData : Ref → EdgeObj := fun _ => ⟨1, 2, none⟩

/-- Object graph for the C4 counterexample: object 0 is a `Block`, every
other object a `Vertex`; no object is a `Patch`. -/
def c4Kind : Ref → Kind := fun r => if r = 0 then Kind.block else Kind.vertex

/-- Registration sequence for the C6 witness: vertex 4 twice (the second
call must be a no-op) and the `LineEdge` 0 of `c1EdgeData`. -/
def c6Ops : List Op := [.addVertex 4, .addEdge 0, .addVertex 4]

/-! ## Theorems -/

theorem Vec3.add_zero_vec (a : Vec3) : a.add Vec3.zero = a := by
  cases a; simp [Vec3.add, Vec3.zero]

/-- C2: when the interior sequence `[(1,0,0)]` — fully collinear with the
endpoints `(0,0,0)` and `(2,0,0)` — is assigned, the source keeps the
collinear interior point and leaves the type tag `spline` in place, because
the result of `np.delete` is discarded; the simplification the spec describes
would produce an empty interior list and the implicit line classification. -/
theorem elements_points_setter_keeps_collinear_point :
    (points_setter c2Edge [⟨1, 0, 0⟩]).points = [⟨1, 0, 0⟩]
    ∧ (points_setter c2Edge [⟨1, 0, 0⟩]).type = some "spline"
    ∧ (simplifiedSetter c2Edge [⟨1, 0, 0⟩]).points = []
    ∧ (simplifiedSetter c2Edge [⟨1, 0, 0⟩]).type = none := by
  norm_num [points_setter, simplifiedSetter, c2Edge, toDelete, toDeleteAux,
    npDelete, npDeleteAux, is_collinear, Vec3.sub, Vec3.cross, Vec3.csum]

/-- C3 counterexample: at `v0 = (0,0,0)`, `v1 = (-1,0,0)`, `v2 = (0,-1,-1)`
the cross product of `v0 - v1` and `v0 - v2` is `(0,-1,1)` — not the zero
vector — yet its component sum is `0`, so `is_collinear` returns `True`.
The claimed equivalence with a vanishing cross product is therefore false. -/
theorem is_collinear_true_on_nonzero_cross :
    is_collinear ⟨0, 0, 0⟩ ⟨-1, 0, 0⟩ ⟨0, -1, -1⟩ = true
    ∧ ((Vec3.mk 0 0 0).sub ⟨-1, 0, 0⟩).cross ((Vec3.mk 0 0 0).sub ⟨0, -1, -1⟩)
        ≠ Vec3.zero := by
  norm_num [is_collinear, Vec3.sub, Vec3.cross, Vec3.csum, Vec3.zero]

/-- C3 (amended): `is_collinear(v0, v1, v2)` returns `True` if and only if the
*sum of the three components* of the cross product of `(v0 - v1)` and
`(v0 - v2)` is zero.  (A zero cross product makes the sum zero and hence
yields `True`, but `True` does not require the cross product to vanish.) -/
theorem is_collinear_iff_cross_sum_zero (v0 v1 v2 : Vec3) :
    is_collinear v0 v1 v2 = true
      ↔ ((v0.sub v1).cross (v0.sub v2)).csum = 0 := by
  simp [is_collinear]

/-- C5: with target cell size 1, `set_cell_size` on `c5Block` produces
`(13, 13, 13)` — `ceil(normL2(v0 + vk) / 1)` — although the Euclidean length
of each axis's first representative edge is 5, so the claimed per-axis count
`ceil(edge_length / target_cell_size)` would be `(5, 5, 5)`. -/
theorem elements_set_cell_size_uses_sum_norm :
    (set_cell_size c5Block 1).ncells = (13, 13, 13)
    ∧ ncells_simple 1 (euclideanDistance ⟨6, 0, 0⟩ ⟨6, 3, 4⟩) = 5
    ∧ ncells_simple 1 (euclideanDistance ⟨6, 0, 0⟩ ⟨6, 4, 3⟩) = 5
    ∧ ncells_simple 1 (euclideanDistance ⟨6, 0, 0⟩ ⟨6, 0, 5⟩) = 5 := by
  have h13 : Real.sqrt (169 : ℝ) = 13 := by
    rw [show (169 : ℝ) = 13 ^ 2 by norm_num]
    exact Real.sqrt_sq (by norm_num)
  have h5 : Real.sqrt (25 : ℝ) = 5 := by
    rw [show (25 : ℝ) = 5 ^ 2 by norm_num]
    exact Real.sqrt_sq (by norm_num)
  refine ⟨?_, ?_, ?_, ?_⟩ <;>
    norm_num [set_cell_size, c5Block, ncells_simple, distance, euclideanDistance,
      normL2, Vec3.add, Vec3.sub, Vec3.normSq, h13, h5, Int.ceil_ofNat]

theorem vertexEq_comm (a b : VertexB) : vertexEq a b = vertexEq b a := by
  simp only [vertexEq]
  rw [Bool.eq_iff_iff]
  simp only [beq_iff_eq]
  exact eq_comm

theorem edgeGuard_passes (v0 v1 : VertexB) (h : vertexEq v0 v1 = false) :
    edgeGuard v0 v1 = .ok () := by
  simp [edgeGuard, h]

/-- When no table pair hits coincident vertices, the comprehension builds
exactly one straight line per table entry. -/
theorem mkLines_ok (vs : List VertexB) (ps : List (ℕ × ℕ))
    (h : ∀ p ∈ ps, vertexEq (vs.getD p.1 default) (vs.getD p.2 default) = false) :
    mkLines vs ps =
      .ok (ps.map fun p => BEdge.line (vs.getD p.1 default) (vs.getD p.2 default)) := by
  induction ps with
  | nil => rfl
  | cons p rest ih =>
      have hp := h p (by simp)
      have hrest := ih (fun q hq => h q (by simp [hq]))
      simp only [mkLines, mkLine, edgeGuard_passes _ _ hp, hrest, List.map_cons]

/-- C7 counterexample: a collection of 8 *coincident* vertices has length 8,
yet `set_vertices` raises the zero-length-edge `ValueError` from the
`LineEdge` constructor instead of installing vertices and edges, so the claim
does not hold for every 8-vertex collection. -/
theorem set_vertices_degenerate_collection_raises :
    set_vertices blockInit (List.replicate 8 (mkVertexB ⟨0, 0, 0⟩)) =
      .error zeroLengthMsg := by
  rfl

/-- C7 (amended): `set_vertices` rejects any count other than 8; for every
8-vertex collection in which no `BLOCK_EDGES` pair connects structurally
equal vertices, it replaces the vertex list and regenerates exactly 12
straight-line edges, one per table entry, connecting the vertices at that
entry's local index pair (discarding whatever edges were stored before). -/
theorem set_vertices_regenerates_line_edges (b : BlockB) (vs : List VertexB) :
    (vs.length ≠ 8 → set_vertices b vs = .error vertexCountMsg)
    ∧ (vs.length = 8 →
        (∀ p ∈ BLOCK_EDGES, vertexEq (vs.getD p.1 default) (vs.getD p.2 default) = false) →
        set_vertices b vs =
          .ok { b with
                vertices := vs,
                edges := BLOCK_EDGES.map
                  (fun p => BEdge.line (vs.getD p.1 default) (vs.getD p.2 default)) }
        ∧ (BLOCK_EDGES.map
            (fun p => BEdge.line (vs.getD p.1 default) (vs.getD p.2 default))).length = 12) := by
  constructor
  · intro h
    simp [set_vertices, h]
  · intro h8 hne
    refine ⟨?_, by simp [BLOCK_EDGES]⟩
    simp [set_vertices, h8, mkLines_ok vs BLOCK_EDGES hne]

/-- C7 witness: the amended statement evaluated on the unit cube. -/
theorem set_vertices_regenerates_line_edges_witness :
    set_vertices blockInit cube8 =
      .ok { blockInit with
            vertices := cube8,
            edges := BLOCK_EDGES.map
              (fun p => BEdge.line (cube8.getD p.1 default) (cube8.getD p.2 default)) }
    ∧ (BLOCK_EDGES.map
        (fun p => BEdge.line (cube8.getD p.1 default) (cube8.getD p.2 default))).length = 12 :=
  (set_vertices_regenerates_line_edges blockInit cube8).2 (by decide) (by decide)

/-- C8: a length-3 grading value selects `simple` grading, a length-12 value
selects `edge` grading, and any other length raises the configuration
`ValueError` with no field written (the error is returned before any
update). -/
theorem grading_setter_dispatch (b : BlockB) (value : List ℚ) :
    (value.length = 3 →
      grading_setter b value = .ok { b with grading := value, gradingType := "simple" })
    ∧ (value.length = 12 →
      grading_setter b value = .ok { b with grading := value, gradingType := "edge" })
    ∧ (value.length ≠ 3 → value.length ≠ 12 →
      grading_setter b value = .error gradingErrMsg) := by
  refine ⟨fun h => ?_, fun h => ?_, fun h3 h12 => ?_⟩ <;>
    simp [grading_setter, *]

/-- C8 witness: the dispatch evaluated at lengths 3, 12 and 2. -/
theorem grading_setter_dispatch_witness :
    grading_setter blockInit [2, 3, 4] =
      .ok { blockInit with grading := [2, 3, 4], gradingType := "simple" }
    ∧ grading_setter blockInit [1, 1, 1, 1, 1, 1, 1, 1, 1, 1, 1, 1] =
      .ok { blockInit with
            grading := [1, 1, 1, 1, 1, 1, 1, 1, 1, 1, 1, 1],
            gradingType := "edge" }
    ∧ grading_setter blockInit [1, 2] = .error gradingErrMsg :=
  ⟨(grading_setter_dispatch blockInit [2, 3, 4]).1 rfl,
   (grading_setter_dispatch blockInit [1, 1, 1, 1, 1, 1, 1, 1, 1, 1, 1, 1]).2.1 rfl,
   (grading_setter_dispatch blockInit [1, 2]).2.2 (by decide) (by decide)⟩

/-- C9: for every edge variant with distinct endpoints, `invert()` succeeds
and returns the edge with the two endpoints swapped, the interior point
sequence reversed and all other data (arc point/origin/factor, surfaces,
type) preserved; inverting again returns the original edge, so `invert` is
an involution. -/
theorem bedge_invert_involution (e : BEdge) (h : vertexEq e.fst e.snd = false) :
    invert e = .ok (invertResult e)
    ∧ (invertResult e).fst = e.snd
    ∧ (invertResult e).snd = e.fst
    ∧ (invertResult e).interior = e.interior.reverse
    ∧ (invertResult e).etype = e.etype
    ∧ invert (invertResult e) = .ok e := by
  have h' : vertexEq e.snd e.fst = false := by rw [vertexEq_comm]; exact h
  cases e <;>
    simp_all [invert, invertResult, mkLine, mkArcMid, mkArcOrigin, mkSpline,
      mkBSpline, mkPolyLine, mkProject, edgeGuard, BEdge.fst, BEdge.snd,
      BEdge.interior, BEdge.etype]

/-- C9 witness: the involution evaluated on a concrete spline edge. -/
theorem bedge_invert_involution_witness :
    invert c9Edge = .ok (invertResult c9Edge)
    ∧ (invertResult c9Edge).fst = c9Edge.snd
    ∧ (invertResult c9Edge).snd = c9Edge.fst
    ∧ (invertResult c9Edge).interior = c9Edge.interior.reverse
    ∧ (invertResult c9Edge).etype = c9Edge.etype
    ∧ invert (invertResult c9Edge) = .ok c9Edge :=
  bedge_invert_involution c9Edge (by decide)

/-- C10: `translate` leaves the receiver (coordinates and identity) exactly
as it was and returns a fresh vertex whose identity is the unset sentinel
`-1` — the copy is detached and must be registered separately — and whose
coordinates are the receiver's translated by `to_array(vector)`. -/
theorem vertex_translate_detached (v : VertexB) (t : Arg) :
    (translate v t).1 = v
    ∧ (translate v t).2.id = -1
    ∧ (translate v t).2.coords = v.coords.add (to_array t) := by
  refine ⟨rfl, rfl, ?_⟩
  cases v with
  | mk c i =>
      cases c
      simp [translate, translate_, vertexAdd, mkVertexB, to_array, Vec3.add]

theorem setId_same (f : Ref → ℤ) (r : Ref) (v : ℤ) : setId f r v r = v := by
  simp [setId]

theorem setId_other (f : Ref → ℤ) (r : Ref) (v : ℤ) {x : Ref} (h : x ≠ r) :
    setId f r v x = f x := by
  simp [setId, h]

theorem setId_nonneg (f : Ref → ℤ) (r : Ref) (v : ℤ) (hv : 0 ≤ v) (x : Ref)
    (hx : 0 ≤ f x) : 0 ≤ setId f r v x := by
  by_cases h : x = r <;> simp [setId, h, hv, hx]

theorem intRange_succ (n : ℕ) : intRange (n + 1) = intRange n ++ [(n : ℤ)] := by
  simp [intRange, List.range_succ]

theorem intRange_nodup (n : ℕ) : (intRange n).Nodup := by
  unfold intRange
  exact List.Nodup.map (fun a b hab => by exact_mod_cast hab) (List.nodup_range n)

theorem mem_intRange_nonneg {n : ℕ} {z : ℤ} (h : z ∈ intRange n) : 0 ≤ z := by
  rw [intRange] at h
  obtain ⟨k, hk1, hk2⟩ := List.mem_map.mp h
  rw [← hk2]
  exact Int.natCast_nonneg k

theorem nonneg_of_mem_map_intRange {l : List Ref} {f : Ref → ℤ}
    (h : l.map f = intRange l.length) : ∀ x ∈ l, 0 ≤ f x := by
  intro x hx
  have hmem : f x ∈ intRange l.length := by
    rw [← h]
    exact List.mem_map_of_mem f hx
  exact mem_intRange_nonneg hmem

theorem map_setId_eq (l : List Ref) (f : Ref → ℤ) (r : Ref) (v : ℤ)
    (hr : f r < 0) (h : ∀ x ∈ l, 0 ≤ f x) :
    l.map (setId f r v) = l.map f := by
  refine List.map_congr_left ?_
  intro x hx
  have hxr : ¬ x = r := by
    intro he
    have hfx := h x hx
    rw [he] at hfx
    omega
  exact setId_other f r v hxr

theorem add_vertex_of_nonneg {s : MeshState} {v : Ref} (h : 0 ≤ s.objId v) :
    add_vertex s v = s := by
  unfold add_vertex
  rw [if_neg (by omega)]

theorem add_patch_of_nonneg {s : MeshState} {p : Ref} (h : 0 ≤ s.objId p) :
    add_patch s p = s := by
  unfold add_patch
  rw [if_neg (by omega)]

theorem add_edge_type_none (edgeData : Ref → EdgeObj) {s : MeshState} {e : Ref}
    (ht : (edgeData e).type = none) : add_edge edgeData s e = s := by
  simp [add_edge, ht]

theorem add_edge_of_nonneg (edgeData : Ref → EdgeObj) {s : MeshState} {e : Ref}
    (h0 : 0 ≤ s.objId (edgeData e).v0) (h1 : 0 ≤ s.objId (edgeData e).v1)
    (he : 0 ≤ s.objId e) : add_edge edgeData s e = s := by
  simp only [add_edge, add_vertex_of_nonneg h0, add_vertex_of_nonneg h1,
    if_neg (show ¬ s.objId e < 0 by omega), ite_self]

theorem foldl_add_vertex_of_nonneg {s : MeshState} {l : List Ref}
    (h : ∀ v ∈ l, 0 ≤ s.objId v) : l.foldl add_vertex s = s := by
  induction l with
  | nil => rfl
  | cons v t ih =>
      rw [List.foldl_cons, add_vertex_of_nonneg (h v (by simp))]
      exact ih (fun x hx => h x (by simp [hx]))

theorem foldl_add_edge_of_nonneg (edgeData : Ref → EdgeObj) {s : MeshState}
    {l : List Ref}
    (h : ∀ e ∈ l, (edgeData e).type = none ∨
        (0 ≤ s.objId e ∧ 0 ≤ s.objId (edgeData e).v0 ∧ 0 ≤ s.objId (edgeData e).v1)) :
    l.foldl (add_edge edgeData) s = s := by
  induction l with
  | nil => rfl
  | cons e t ih =>
      have hstep : add_edge edgeData s e = s := by
        rcases h e (by simp) with ht | ⟨he, h0, h1⟩
        · exact add_edge_type_none edgeData ht
        · exact add_edge_of_nonneg edgeData h0 h1 he
      rw [List.foldl_cons, hstep]
      exact ih (fun x hx => h x (by simp [hx]))

theorem inv_counters (edgeData : Ref → EdgeObj) (blockData : Ref → BlockObj)
    {s : MeshState} (hInv : Inv edgeData blockData s) :
    0 ≤ s.idsVertex ∧ 0 ≤ s.idsEdge ∧ 0 ≤ s.idsBlock ∧ 0 ≤ s.idsPatch := by
  obtain ⟨hv1, -, he1, -, hb1, -, hp1, -, -, -⟩ := hInv
  refine ⟨?_, ?_, ?_, ?_⟩
  · rw [hv1]; exact Int.natCast_nonneg _
  · rw [he1]; exact Int.natCast_nonneg _
  · rw [hb1]; exact Int.natCast_nonneg _
  · rw [hp1]; exact Int.natCast_nonneg _

theorem add_vertex_mono {s : MeshState} (v x : Ref) (hc : 0 ≤ s.idsVertex)
    (h : 0 ≤ s.objId x) : 0 ≤ (add_vertex s v).objId x := by
  by_cases hv : s.objId v < 0
  · simp only [add_vertex, if_pos hv]
    exact setId_nonneg _ _ _ hc x h
  · simp only [add_vertex, if_neg hv]
    exact h

theorem add_vertex_self {s : MeshState} (v : Ref) (hc : 0 ≤ s.idsVertex) :
    0 ≤ (add_vertex s v).objId v := by
  by_cases hv : s.objId v < 0
  · simp only [add_vertex, if_pos hv]
    show 0 ≤ setId s.objId v s.idsVertex v
    rw [setId_same]
    exact hc
  · simp only [add_vertex, if_neg hv]
    omega

theorem add_vertex_inv (edgeData : Ref → EdgeObj) (blockData : Ref → BlockObj)
    {s : MeshState} (v : Ref) (hInv : Inv edgeData blockData s) :
    Inv edgeData blockData (add_vertex s v) := by
  obtain ⟨hv1, hv2, he1, he2, hb1, hb2, hp1, hp2, hedge, hblock⟩ := hInv
  have hcv : 0 ≤ s.idsVertex := by rw [hv1]; exact Int.natCast_nonneg _
  by_cases h : s.objId v < 0
  · simp only [add_vertex, if_pos h]
    have hvn := nonneg_of_mem_map_intRange hv2
    have hen := nonneg_of_mem_map_intRange he2
    have hbn := nonneg_of_mem_map_intRange hb2
    have hpn := nonneg_of_mem_map_intRange hp2
    refine ⟨?_, ?_, ?_, ?_, ?_, ?_, ?_, ?_, ?_, ?_⟩
    · show s.idsVertex + 1 = ((s.vertices ++ [v]).length : ℤ)
      rw [hv1, List.length_append, List.length_singleton]
      push_cast
      ring
    · show (s.vertices ++ [v]).map (setId s.objId v s.idsVertex)
          = intRange (s.vertices ++ [v]).length
      rw [List.map_append, map_setId_eq _ _ _ _ h hvn, hv2,
        show (s.vertices ++ [v]).length = s.vertices.length + 1 by simp,
        intRange_succ]
      simp [setId_same, hv1]
    · exact he1
    · show s.edges.map (setId s.objId v s.idsVertex) = intRange s.edges.length
      rw [map_setId_eq _ _ _ _ h hen]
      exact he2
    · exact hb1
    · show s.blocks.map (setId s.objId v s.idsVertex) = intRange s.blocks.length
      rw [map_setId_eq _ _ _ _ h hbn]
      exact hb2
    · exact hp1
    · show s.patches.map (setId s.objId v s.idsVertex) = intRange s.patches.length
      rw [map_setId_eq _ _ _ _ h hpn]
      exact hp2
    · intro e he
      obtain ⟨g0, g1⟩ := hedge e he
      exact ⟨setId_nonneg _ _ _ hcv _ g0, setId_nonneg _ _ _ hcv _ g1⟩
    · intro b hb
      obtain ⟨gv, ge⟩ := hblock b hb
      refine ⟨fun w hw => setId_nonneg _ _ _ hcv _ (gv w hw), fun e he ht => ?_⟩
      obtain ⟨a1, a2, a3⟩ := ge e he ht
      exact ⟨setId_nonneg _ _ _ hcv _ a1, setId_nonneg _ _ _ hcv _ a2,
        setId_nonneg _ _ _ hcv _ a3⟩
  · simp only [add_vertex, if_neg h]
    exact ⟨hv1, hv2, he1, he2, hb1, hb2, hp1, hp2, hedge, hblock⟩

theorem add_patch_inv (edgeData : Ref → EdgeObj) (blockData : Ref → BlockObj)
    {s : MeshState} (p : Ref) (hInv : Inv edgeData blockData s) :
    Inv edgeData blockData (add_patch s p) := by
  obtain ⟨hv1, hv2, he1, he2, hb1, hb2, hp1, hp2, hedge, hblock⟩ := hInv
  have hcp : 0 ≤ s.idsPatch := by rw [hp1]; exact Int.natCast_nonneg _
  by_cases h : s.objId p < 0
  · simp only [add_patch, if_pos h]
    have hvn := nonneg_of_mem_map_intRange hv2
    have hen := nonneg_of_mem_map_intRange he2
    have hbn := nonneg_of_mem_map_intRange hb2
    have hpn := nonneg_of_mem_map_intRange hp2
    refine ⟨?_, ?_, ?_, ?_, ?_, ?_, ?_, ?_, ?_, ?_⟩
    · exact hv1
    · show s.vertices.map (setId s.objId p s.idsPatch) = intRange s.vertices.length
      rw [map_setId_eq _ _ _ _ h hvn]
      exact hv2
    · exact he1
    · show s.edges.map (setId s.objId p s.idsPatch) = intRange s.edges.length
      rw [map_setId_eq _ _ _ _ h hen]
      exact he2
    · exact hb1
    · show s.blocks.map (setId s.objId p s.idsPatch) = intRange s.blocks.length
      rw [map_setId_eq _ _ _ _ h hbn]
      exact hb2
    · show s.idsPatch + 1 = ((s.patches ++ [p]).length : ℤ)
      rw [hp1, List.length_append, List.length_singleton]
      push_cast
      ring
    · show (s.patches ++ [p]).map (setId s.objId p s.idsPatch)
          = intRange (s.patches ++ [p]).length
      rw [List.map_append, map_setId_eq _ _ _ _ h hpn, hp2,
        show (s.patches ++ [p]).length = s.patches.length + 1 by simp,
        intRange_succ]
      simp [setId_same, hp1]
    · intro e he
      obtain ⟨g0, g1⟩ := hedge e he
      exact ⟨setId_nonneg _ _ _ hcp _ g0, setId_nonneg _ _ _ hcp _ g1⟩
    · intro b hb
      obtain ⟨gv, ge⟩ := hblock b hb
      refine ⟨fun w hw => setId_nonneg _ _ _ hcp _ (gv w hw), fun e he ht => ?_⟩
      obtain ⟨a1, a2, a3⟩ := ge e he ht
      exact ⟨setId_nonneg _ _ _ hcp _ a1, setId_nonneg _ _ _ hcp _ a2,
        setId_nonneg _ _ _ hcp _ a3⟩
  · simp only [add_patch, if_neg h]
    exact ⟨hv1, hv2, he1, he2, hb1, hb2, hp1, hp2, hedge, hblock⟩

theorem add_edge_eq (edgeData : Ref → EdgeObj) (s : MeshState) (e : Ref)
    (ht : ¬ (edgeData e).type = none) :
    add_edge edgeData s e =
      if (add_vertex (add_vertex s (edgeData e).v0) (edgeData e).v1).objId e < 0 then
        { add_vertex (add_vertex s (edgeData e).v0) (edgeData e).v1 with
          edges :=
            (add_vertex (add_vertex s (edgeData e).v0) (edgeData e).v1).edges ++ [e],
          objId :=
            setId (add_vertex (add_vertex s (edgeData e).v0) (edgeData e).v1).objId e
              (add_vertex (add_vertex s (edgeData e).v0) (edgeData e).v1).idsEdge,
          idsEdge :=
            (add_vertex (add_vertex s (edgeData e).v0) (edgeData e).v1).idsEdge + 1 }
      else add_vertex (add_vertex s (edgeData e).v0) (edgeData e).v1 := by
  simp only [add_edge, if_neg ht]

theorem add_edge_append_inv (edgeData : Ref → EdgeObj) (blockData : Ref → BlockObj)
    {s2 : MeshState} (e : Ref) (hInv : Inv edgeData blockData s2)
    (hneg : s2.objId e < 0)
    (hv0 : 0 ≤ s2.objId (edgeData e).v0) (hv1 : 0 ≤ s2.objId (edgeData e).v1) :
    Inv edgeData blockData
      { s2 with edges := s2.edges ++ [e],
                objId := setId s2.objId e s2.idsEdge,
                idsEdge := s2.idsEdge + 1 } := by
  obtain ⟨hva, hvb, hea, heb, hba, hbb, hpa, hpb, hedge, hblock⟩ := hInv
  have hce : 0 ≤ s2.idsEdge := by rw [hea]; exact Int.natCast_nonneg _
  have hvn := nonneg_of_mem_map_intRange hvb
  have hen := nonneg_of_mem_map_intRange heb
  have hbn := nonneg_of_mem_map_intRange hbb
  have hpn := nonneg_of_mem_map_intRange hpb
  refine ⟨?_, ?_, ?_, ?_, ?_, ?_, ?_, ?_, ?_, ?_⟩
  · exact hva
  · show s2.vertices.map (setId s2.objId e s2.idsEdge) = intRange s2.vertices.length
    rw [map_setId_eq _ _ _ _ hneg hvn]
    exact hvb
  · show s2.idsEdge + 1 = ((s2.edges ++ [e]).length : ℤ)
    rw [hea, List.length_append, List.length_singleton]
    push_cast
    ring
  · show (s2.edges ++ [e]).map (setId s2.objId e s2.idsEdge)
        = intRange (s2.edges ++ [e]).length
    rw [List.map_append, map_setId_eq _ _ _ _ hneg hen, heb,
      show (s2.edges ++ [e]).length = s2.edges.length + 1 by simp,
      intRange_succ]
    simp [setId_same, hea]
  · exact hba
  · show s2.blocks.map (setId s2.objId e s2.idsEdge) = intRange s2.blocks.length
    rw [map_setId_eq _ _ _ _ hneg hbn]
    exact hbb
  · exact hpa
  · show s2.patches.map (setId s2.objId e s2.idsEdge) = intRange s2.patches.length
    rw [map_setId_eq _ _ _ _ hneg hpn]
    exact hpb
  · intro f hf
    rcases List.mem_append.mp hf with hmem | hmem
    · obtain ⟨g0, g1⟩ := hedge f hmem
      exact ⟨setId_nonneg _ _ _ hce _ g0, setId_nonneg _ _ _ hce _ g1⟩
    · have hfe : f = e := by simpa using hmem
      subst hfe
      exact ⟨setId_nonneg _ _ _ hce _ hv0, setId_nonneg _ _ _ hce _ hv1⟩
  · intro b hb
    obtain ⟨gv, ge⟩ := hblock b hb
    refine ⟨fun w hw => setId_nonneg _ _ _ hce _ (gv w hw), fun f hf htf => ?_⟩
    obtain ⟨a1, a2, a3⟩ := ge f hf htf
    exact ⟨setId_nonneg _ _ _ hce _ a1, setId_nonneg _ _ _ hce _ a2,
      setId_nonneg _ _ _ hce _ a3⟩

theorem add_edge_inv (edgeData : Ref → EdgeObj) (blockData : Ref → BlockObj)
    {s : MeshState} (e : Ref) (hInv : Inv edgeData blockData s) :
    Inv edgeData blockData (add_edge edgeData s e) := by
  by_cases ht : (edgeData e).type = none
  · rw [add_edge_type_none edgeData ht]
    exact hInv
  · have h1 := add_vertex_inv edgeData blockData (edgeData e).v0 hInv
    have h2 := add_vertex_inv edgeData blockData (edgeData e).v1 h1
    rw [add_edge_eq edgeData s e ht]
    set s2 := add_vertex (add_vertex s (edgeData e).v0) (edgeData e).v1 with hs2
    by_cases hneg : s2.objId e < 0
    · rw [if_pos hneg]
      refine add_edge_append_inv edgeData blockData e h2 hneg ?_ ?_
      · exact add_vertex_mono _ _ (inv_counters edgeData blockData h1).1
          (add_vertex_self _ (inv_counters edgeData blockData hInv).1)
      · exact add_vertex_self _ (inv_counters edgeData blockData h1).1
    · rw [if_neg hneg]
      exact h2

theorem add_edge_mono (edgeData : Ref → EdgeObj) (blockData : Ref → BlockObj)
    {s : MeshState} (e x : Ref) (hInv : Inv edgeData blockData s)
    (h : 0 ≤ s.objId x) : 0 ≤ (add_edge edgeData s e).objId x := by
  by_cases ht : (edgeData e).type = none
  · rw [add_edge_type_none edgeData ht]
    exact h
  · have h1 := add_vertex_inv edgeData blockData (edgeData e).v0 hInv
    have h2 := add_vertex_inv edgeData blockData (edgeData e).v1 h1
    rw [add_edge_eq edgeData s e ht]
    set s2 := add_vertex (add_vertex s (edgeData e).v0) (edgeData e).v1 with hs2
    have hx2 : 0 ≤ s2.objId x :=
      add_vertex_mono _ _ (inv_counters edgeData blockData h1).1
        (add_vertex_mono _ _ (inv_counters edgeData blockData hInv).1 h)
    by_cases hneg : s2.objId e < 0
    · rw [if_pos hneg]
      show 0 ≤ setId s2.objId e s2.idsEdge x
      exact setId_nonneg _ _ _ (inv_counters edgeData blockData h2).2.1 x hx2
    · rw [if_neg hneg]
      exact hx2

theorem add_edge_post (edgeData : Ref → EdgeObj) (blockData : Ref → BlockObj)
    {s : MeshState} (e : Ref) (hInv : Inv edgeData blockData s)
    (ht : ¬ (edgeData e).type = none) :
    0 ≤ (add_edge edgeData s e).objId e
    ∧ 0 ≤ (add_edge edgeData s e).objId (edgeData e).v0
    ∧ 0 ≤ (add_edge edgeData s e).objId (edgeData e).v1 := by
  have h1 := add_vertex_inv edgeData blockData (edgeData e).v0 hInv
  have h2 := add_vertex_inv edgeData blockData (edgeData e).v1 h1
  rw [add_edge_eq edgeData s e ht]
  set s2 := add_vertex (add_vertex s (edgeData e).v0) (edgeData e).v1 with hs2
  have hv0 : 0 ≤ s2.objId (edgeData e).v0 :=
    add_vertex_mono _ _ (inv_counters edgeData blockData h1).1
      (add_vertex_self _ (inv_counters edgeData blockData hInv).1)
  have hv1 : 0 ≤ s2.objId (edgeData e).v1 :=
    add_vertex_self _ (inv_counters edgeData blockData h1).1
  have hce : 0 ≤ s2.idsEdge := (inv_counters edgeData blockData h2).2.1
  by_cases hneg : s2.objId e < 0
  · rw [if_pos hneg]
    refine ⟨?_, ?_, ?_⟩
    · show 0 ≤ setId s2.objId e s2.idsEdge e
      rw [setId_same]
      exact hce
    · exact setId_nonneg _ _ _ hce _ hv0
    · exact setId_nonneg _ _ _ hce _ hv1
  · rw [if_neg hneg]
    exact ⟨by omega, hv0, hv1⟩

theorem foldl_add_vertex_inv (edgeData : Ref → EdgeObj) (blockData : Ref → BlockObj)
    {s : MeshState} (l : List Ref) (hInv : Inv edgeData blockData s) :
    Inv edgeData blockData (l.foldl add_vertex s) := by
  induction l generalizing s with
  | nil => exact hInv
  | cons v t ih =>
      rw [List.foldl_cons]
      exact ih (add_vertex_inv edgeData blockData v hInv)

theorem foldl_add_vertex_mono (edgeData : Ref → EdgeObj) (blockData : Ref → BlockObj)
    {s : MeshState} (l : List Ref) (x : Ref) (hInv : Inv edgeData blockData s)
    (h : 0 ≤ s.objId x) : 0 ≤ (l.foldl add_vertex s).objId x := by
  induction l generalizing s with
  | nil => exact h
  | cons v t ih =>
      rw [List.foldl_cons]
      exact ih (add_vertex_inv edgeData blockData v hInv)
        (add_vertex_mono _ _ (inv_counters edgeData blockData hInv).1 h)

theorem foldl_add_vertex_post (edgeData : Ref → EdgeObj) (blockData : Ref → BlockObj)
    {s : MeshState} (l : List Ref) (hInv : Inv edgeData blockData s) :
    ∀ v ∈ l, 0 ≤ (l.foldl add_vertex s).objId v := by
  induction l generalizing s with
  | nil =>
      intro v hv
      exact absurd hv (List.not_mem_nil v)
  | cons w t ih =>
      intro v hv
      rw [List.foldl_cons]
      rcases List.mem_cons.mp hv with rfl | hmem
      · exact foldl_add_vertex_mono edgeData blockData t v
          (add_vertex_inv edgeData blockData v hInv)
          (add_vertex_self _ (inv_counters edgeData blockData hInv).1)
      · exact ih (add_vertex_inv edgeData blockData w hInv) v hmem

theorem foldl_add_edge_inv (edgeData : Ref → EdgeObj) (blockData : Ref → BlockObj)
    {s : MeshState} (l : List Ref) (hInv : Inv edgeData blockData s) :
    Inv edgeData blockData (l.foldl (add_edge edgeData) s) := by
  induction l generalizing s with
  | nil => exact hInv
  | cons e t ih =>
      rw [List.foldl_cons]
      exact ih (add_edge_inv edgeData blockData e hInv)

theorem foldl_add_edge_mono (edgeData : Ref → EdgeObj) (blockData : Ref → BlockObj)
    {s : MeshState} (l : List Ref) (x : Ref) (hInv : Inv edgeData blockData s)
    (h : 0 ≤ s.objId x) : 0 ≤ (l.foldl (add_edge edgeData) s).objId x := by
  induction l generalizing s with
  | nil => exact h
  | cons e t ih =>
      rw [List.foldl_cons]
      exact ih (add_edge_inv edgeData blockData e hInv)
        (add_edge_mono edgeData blockData e x hInv h)

theorem foldl_add_edge_post (edgeData : Ref → EdgeObj) (blockData : Ref → BlockObj)
    {s : MeshState} (l : List Ref) (hInv : Inv edgeData blockData s) :
    ∀ e ∈ l, ¬ (edgeData e).type = none →
      0 ≤ (l.foldl (add_edge edgeData) s).objId e
      ∧ 0 ≤ (l.foldl (add_edge edgeData) s).objId (edgeData e).v0
      ∧ 0 ≤ (l.foldl (add_edge edgeData) s).objId (edgeData e).v1 := by
  induction l generalizing s with
  | nil =>
      intro e he
      exact absurd he (List.not_mem_nil e)
  | cons f t ih =>
      intro e he ht
      rw [List.foldl_cons]
      rcases List.mem_cons.mp he with rfl | hmem
      · obtain ⟨a1, a2, a3⟩ := add_edge_post edgeData blockData e hInv ht
        have hInvf := add_edge_inv edgeData blockData e hInv
        exact ⟨foldl_add_edge_mono edgeData blockData t e hInvf a1,
          foldl_add_edge_mono edgeData blockData t _ hInvf a2,
          foldl_add_edge_mono edgeData blockData t _ hInvf a3⟩
      · exact ih (add_edge_inv edgeData blockData f hInv) e hmem ht

theorem add_block_append_inv (edgeData : Ref → EdgeObj) (blockData : Ref → BlockObj)
    {s2 : MeshState} (b : Ref) (hInv : Inv edgeData blockData s2)
    (hneg : s2.objId b < 0)
    (hbv : ∀ v ∈ (blockData b).vertices, 0 ≤ s2.objId v)
    (hbe : ∀ e ∈ (blockData b).edges, (edgeData e).type ≠ none →
        0 ≤ s2.objId e ∧ 0 ≤ s2.objId (edgeData e).v0 ∧ 0 ≤ s2.objId (edgeData e).v1) :
    Inv edgeData blockData
      { s2 with blocks := s2.blocks ++ [b],
                objId := setId s2.objId b s2.idsBlock,
                idsBlock := s2.idsBlock + 1 } := by
  obtain ⟨hva, hvb, hea, heb, hba, hbb, hpa, hpb, hedge, hblock⟩ := hInv
  have hcb : 0 ≤ s2.idsBlock := by rw [hba]; exact Int.natCast_nonneg _
  have hvn := nonneg_of_mem_map_intRange hvb
  have hen := nonneg_of_mem_map_intRange heb
  have hbn := nonneg_of_mem_map_intRange hbb
  have hpn := nonneg_of_mem_map_intRange hpb
  refine ⟨?_, ?_, ?_, ?_, ?_, ?_, ?_, ?_, ?_, ?_⟩
  · exact hva
  · show s2.vertices.map (setId s2.objId b s2.idsBlock) = intRange s2.vertices.length
    rw [map_setId_eq _ _ _ _ hneg hvn]
    exact hvb
  · exact hea
  · show s2.edges.map (setId s2.objId b s2.idsBlock) = intRange s2.edges.length
    rw [map_setId_eq _ _ _ _ hneg hen]
    exact heb
  · show s2.idsBlock + 1 = ((s2.blocks ++ [b]).length : ℤ)
    rw [hba, List.length_append, List.length_singleton]
    push_cast
    ring
  · show (s2.blocks ++ [b]).map (setId s2.objId b s2.idsBlock)
        = intRange (s2.blocks ++ [b]).length
    rw [List.map_append, map_setId_eq _ _ _ _ hneg hbn, hbb,
      show (s2.blocks ++ [b]).length = s2.blocks.length + 1 by simp,
      intRange_succ]
    simp [setId_same, hba]
  · exact hpa
  · show s2.patches.map (setId s2.objId b s2.idsBlock) = intRange s2.patches.length
    rw [map_setId_eq _ _ _ _ hneg hpn]
    exact hpb
  · intro f hf
    obtain ⟨g0, g1⟩ := hedge f hf
    exact ⟨setId_nonneg _ _ _ hcb _ g0, setId_nonneg _ _ _ hcb _ g1⟩
  · intro c hc
    rcases List.mem_append.mp hc with hmem | hmem
    · obtain ⟨gv, ge⟩ := hblock c hmem
      refine ⟨fun w hw => setId_nonneg _ _ _ hcb _ (gv w hw), fun f hf htf => ?_⟩
      obtain ⟨a1, a2, a3⟩ := ge f hf htf
      exact ⟨setId_nonneg _ _ _ hcb _ a1, setId_nonneg _ _ _ hcb _ a2,
        setId_nonneg _ _ _ hcb _ a3⟩
    · have hcb' : c = b := by simpa using hmem
      subst hcb'
      refine ⟨fun w hw => setId_nonneg _ _ _ hcb _ (hbv w hw), fun f hf htf => ?_⟩
      obtain ⟨a1, a2, a3⟩ := hbe f hf htf
      exact ⟨setId_nonneg _ _ _ hcb _ a1, setId_nonneg _ _ _ hcb _ a2,
        setId_nonneg _ _ _ hcb _ a3⟩

theorem add_block_err (kind : Ref → Kind) (edgeData : Ref → EdgeObj)
    (blockData : Ref → BlockObj) (s : MeshState) (b : Ref)
    (hk : kind b ≠ Kind.block) :
    add_block kind edgeData blockData s b = .error (blockTypeMsg b) := by
  simp [add_block, hk]

theorem add_block_ok_inv (kind : Ref → Kind) (edgeData : Ref → EdgeObj)
    (blockData : Ref → BlockObj) {s : MeshState} (b : Ref)
    (hInv : Inv edgeData blockData s) (hk : kind b = Kind.block) :
    ∀ s3, add_block kind edgeData blockData s b = .ok s3 →
      Inv edgeData blockData s3 := by
  intro s3 hok
  have hInv1 := foldl_add_vertex_inv edgeData blockData (blockData b).vertices hInv
  have hInv2 := foldl_add_edge_inv edgeData blockData (blockData b).edges hInv1
  rw [add_block, if_neg (by simp [hk])] at hok
  simp only [] at hok
  set s2 := (blockData b).edges.foldl (add_edge edgeData)
    ((blockData b).vertices.foldl add_vertex s) with hs2
  by_cases hneg : s2.objId b < 0
  · rw [if_pos hneg] at hok
    have hbv : ∀ v ∈ (blockData b).vertices, 0 ≤ s2.objId v := fun v hv =>
      foldl_add_edge_mono edgeData blockData _ v hInv1
        (foldl_add_vertex_post edgeData blockData _ hInv v hv)
    have hbe : ∀ e ∈ (blockData b).edges, (edgeData e).type ≠ none →
        0 ≤ s2.objId e ∧ 0 ≤ s2.objId (edgeData e).v0 ∧ 0 ≤ s2.objId (edgeData e).v1 :=
      fun e he ht => foldl_add_edge_post edgeData blockData _ hInv1 e he ht
    have := add_block_append_inv edgeData blockData b hInv2 hneg hbv hbe
    rwa [← Except.ok.inj hok]
  · rw [if_neg hneg] at hok
    rwa [← Except.ok.inj hok]

theorem applyOp_inv (kind : Ref → Kind) (edgeData : Ref → EdgeObj)
    (blockData : Ref → BlockObj) {s : MeshState} (op : Op)
    (hInv : Inv edgeData blockData s) :
    Inv edgeData blockData (applyOp kind edgeData blockData s op) := by
  cases op with
  | addVertex v => exact add_vertex_inv edgeData blockData v hInv
  | addEdge e => exact add_edge_inv edgeData blockData e hInv
  | addPatch p => exact add_patch_inv edgeData blockData p hInv
  | addMergePatchPairs m sl =>
      have h2 := add_patch_inv edgeData blockData sl
        (add_patch_inv edgeData blockData m hInv)
      exact h2
  | addBlock b =>
      show Inv edgeData blockData
        (match add_block kind edgeData blockData s b with
          | .ok s2 => s2
          | .error _ => s)
      by_cases hk : kind b = Kind.block
      · rcases hok : add_block kind edgeData blockData s b with msg | s3
        · exact hInv
        · exact add_block_ok_inv kind edgeData blockData b hInv hk s3 hok
      · rw [add_block_err kind edgeData blockData s b hk]
        exact hInv

theorem run_inv (kind : Ref → Kind) (edgeData : Ref → EdgeObj)
    (blockData : Ref → BlockObj) {s : MeshState} (ops : List Op)
    (hInv : Inv edgeData blockData s) :
    Inv edgeData blockData (run kind edgeData blockData s ops) := by
  induction ops generalizing s with
  | nil => exact hInv
  | cons op t ih =>
      show Inv edgeData blockData
        (run kind edgeData blockData (applyOp kind edgeData blockData s op) t)
      exact ih (applyOp_inv kind edgeData blockData op hInv)

theorem meshInit_inv (edgeData : Ref → EdgeObj) (blockData : Ref → BlockObj) :
    Inv edgeData blockData meshInit := by
  refine ⟨rfl, rfl, rfl, rfl, rfl, rfl, rfl, rfl, ?_, ?_⟩ <;>
    intro x hx <;> exact absurd hx (List.not_mem_nil x)

theorem add_vertex_objId_other {s : MeshState} {v x : Ref} (h : x ≠ v) :
    (add_vertex s v).objId x = s.objId x := by
  by_cases hv : s.objId v < 0
  · simp only [add_vertex, if_pos hv]
    exact setId_other _ _ _ h
  · simp only [add_vertex, if_neg hv]

theorem add_vertex_edges (s : MeshState) (v : Ref) :
    (add_vertex s v).edges = s.edges := by
  unfold add_vertex
  split <;> rfl

theorem add_vertex_idsEdge (s : MeshState) (v : Ref) :
    (add_vertex s v).idsEdge = s.idsEdge := by
  unfold add_vertex
  split <;> rfl

/-- C1 counterexample: registering a straight-line edge (a `LineEdge`, whose
`type` property is `"line"`, not `None`) with a fresh mesh is *not* a no-op:
the edge is appended to the edge list, is assigned identity 0, and the edge
identity counter advances to 1. -/
theorem add_edge_registers_straight_line :
    (add_edge c1EdgeData meshInit 0).edges = [0]
    ∧ (add_edge c1EdgeData meshInit 0).objId 0 = 0
    ∧ (add_edge c1EdgeData meshInit 0).idsEdge = 1
    ∧ (c1EdgeData 0).type = some "line" := by
  refine ⟨rfl, rfl, rfl, rfl⟩

/-- C1 (amended): `add_edge` is a no-op exactly when the edge's `type`
attribute is `None`; a straight-line edge of the `blockmesh` hierarchy has
`type = "line"`, so it is registered like any other edge — appended, given
the next edge identity, counter advanced — but edges of type `"line"` are
excluded from the rendered edges section. -/
theorem add_edge_noop_only_for_type_none (edgeData : Ref → EdgeObj)
    (s : MeshState) (e : Ref) :
    ((edgeData e).type = none → add_edge edgeData s e = s)
    ∧ ((edgeData e).type = some "line" → (edgeData e).v0 ≠ e →
        (edgeData e).v1 ≠ e → s.objId e < 0 →
        (add_edge edgeData s e).edges = s.edges ++ [e]
        ∧ (add_edge edgeData s e).objId e = s.idsEdge
        ∧ (add_edge edgeData s e).idsEdge = s.idsEdge + 1
        ∧ e ∉ renderEdges edgeData (add_edge edgeData s e)) := by
  constructor
  · intro ht
    exact add_edge_type_none edgeData ht
  · intro ht hv0 hv1 hneg
    have htn : ¬ (edgeData e).type = none := by simp [ht]
    rw [add_edge_eq edgeData s e htn]
    set s2 := add_vertex (add_vertex s (edgeData e).v0) (edgeData e).v1 with hs2
    have hedges : s2.edges = s.edges := by
      rw [hs2, add_vertex_edges, add_vertex_edges]
    have hids : s2.idsEdge = s.idsEdge := by
      rw [hs2, add_vertex_idsEdge, add_vertex_idsEdge]
    have hid : s2.objId e = s.objId e := by
      rw [hs2, add_vertex_objId_other (Ne.symm hv1),
        add_vertex_objId_other (Ne.symm hv0)]
    rw [if_pos (by rw [hid]; exact hneg)]
    refine ⟨?_, ?_, ?_, ?_⟩
    · show s2.edges ++ [e] = s.edges ++ [e]
      rw [hedges]
    · show setId s2.objId e s2.idsEdge e = s.idsEdge
      rw [setId_same, hids]
    · show s2.idsEdge + 1 = s.idsEdge + 1
      rw [hids]
    · intro hmem
      have hp := (List.mem_filter.mp hmem).2
      rw [ht] at hp
      simp at hp

/-- C1 witness: the amended statement evaluated on a fresh mesh — a
type-`None` edge is ignored, while the `LineEdge` of `c1EdgeData` is
registered with identity 0 and stays out of the rendered edges. -/
theorem add_edge_noop_only_for_type_none_witness :
    add_edge c1bEdgeData meshInit 3 = meshInit
    ∧ ((add_edge c1EdgeData meshInit 0).edges = meshInit.edges ++ [0]
       ∧ (add_edge c1EdgeData meshInit 0).objId 0 = meshInit.idsEdge
       ∧ (add_edge c1EdgeData meshInit 0).idsEdge = meshInit.idsEdge + 1
       ∧ 0 ∉ renderEdges c1EdgeData (add_edge c1EdgeData meshInit 0)) :=
  ⟨(add_edge_noop_only_for_type_none c1bEdgeData meshInit 3).1 rfl,
   (add_edge_noop_only_for_type_none c1EdgeData meshInit 0).2 rfl
     (by decide) (by decide) (by decide)⟩

/-- C4 counterexample: passing a value that is *not* a `Patch` (here the
`Block` object 0) to `add_patch` does not raise any error — the block is
appended to the patch list, assigned patch identity 0, and the patch counter
advances, because `add_patch` performs no type validation. -/
theorem add_patch_accepts_non_patch :
    c4Kind 0 = Kind.block
    ∧ (add_patch meshInit 0).patches = [0]
    ∧ (add_patch meshInit 0).objId 0 = 0
    ∧ (add_patch meshInit 0).idsPatch = 1 := by
  refine ⟨rfl, rfl, rfl, rfl⟩

/-- C4 (amended): `add_block` validates its argument's type before touching
any collection and raises a descriptive `TypeError` for a non-`Block` (the
error carries no partial mutation); `add_patch`, however, performs *no* type
validation — any object with an unassigned identity is appended to the
patch list and given the next patch id, whatever its class. -/
theorem add_block_checks_type_add_patch_does_not (kind : Ref → Kind)
    (edgeData : Ref → EdgeObj) (blockData : Ref → BlockObj) (s : MeshState)
    (b p : Ref) :
    (kind b ≠ Kind.block →
      add_block kind edgeData blockData s b = .error (blockTypeMsg b))
    ∧ (s.objId p < 0 →
        (add_patch s p).patches = s.patches ++ [p]
        ∧ (add_patch s p).objId p = s.idsPatch
        ∧ (add_patch s p).idsPatch = s.idsPatch + 1) := by
  constructor
  · intro hk
    exact add_block_err kind edgeData blockData s b hk
  · intro hneg
    unfold add_patch
    rw [if_pos hneg]
    exact ⟨rfl, setId_same _ _ _, rfl⟩

/-- C4 witness: the amended statement on a fresh mesh — `add_block` on the
vertex object 1 raises the `TypeError`, and `add_patch` on the block
object 0 registers it as patch 0. -/
theorem add_block_checks_type_add_patch_does_not_witness :
    add_block c4Kind c1EdgeData c1BlockData meshInit 1 = .error (blockTypeMsg 1)
    ∧ ((add_patch meshInit 0).patches = meshInit.patches ++ [0]
       ∧ (add_patch meshInit 0).objId 0 = meshInit.idsPatch
       ∧ (add_patch meshInit 0).idsPatch = meshInit.idsPatch + 1) :=
  ⟨(add_block_checks_type_add_patch_does_not c4Kind c1EdgeData c1BlockData
      meshInit 1 0).1 (by decide),
   (add_block_checks_type_add_patch_does_not c4Kind c1EdgeData c1BlockData
      meshInit 1 0).2 (by decide)⟩

/-- C6: after any sequence of registration calls on a fresh mesh, each
element list carries the identities `0 .. length-1` in insertion order
(assigned by the per-category counter, which equals the list length), the
identities in each list are pairwise distinct, and re-registering any
already-registered vertex, edge, patch, or block object is a no-op. -/
theorem mesh_identity_registration (kind : Ref → Kind)
    (edgeData : Ref → EdgeObj) (blockData : Ref → BlockObj) (ops : List Op)
    (s : MeshState) (hs : s = run kind edgeData blockData meshInit ops) :
    (s.vertices.map s.objId = intRange s.vertices.length
      ∧ s.idsVertex = (s.vertices.length : ℤ))
    ∧ (s.edges.map s.objId = intRange s.edges.length
      ∧ s.idsEdge = (s.edges.length : ℤ))
    ∧ (s.blocks.map s.objId = intRange s.blocks.length
      ∧ s.idsBlock = (s.blocks.length : ℤ))
    ∧ (s.patches.map s.objId = intRange s.patches.length
      ∧ s.idsPatch = (s.patches.length : ℤ))
    ∧ (s.vertices.map s.objId).Nodup
    ∧ (s.edges.map s.objId).Nodup
    ∧ (s.blocks.map s.objId).Nodup
    ∧ (s.patches.map s.objId).Nodup
    ∧ (∀ v ∈ s.vertices, add_vertex s v = s)
    ∧ (∀ e ∈ s.edges, add_edge edgeData s e = s)
    ∧ (∀ p ∈ s.patches, add_patch s p = s)
    ∧ (∀ b ∈ s.blocks, kind b = Kind.block →
        add_block kind edgeData blockData s b = .ok s) := by
  have hInv : Inv edgeData blockData s := by
    rw [hs]
    exact run_inv kind edgeData blockData ops (meshInit_inv edgeData blockData)
  obtain ⟨hva, hvb, hea, heb, hba, hbb, hpa, hpb, hedge, hblock⟩ := hInv
  have hvn := nonneg_of_mem_map_intRange hvb
  have hen := nonneg_of_mem_map_intRange heb
  have hbn := nonneg_of_mem_map_intRange hbb
  have hpn := nonneg_of_mem_map_intRange hpb
  refine ⟨⟨hvb, hva⟩, ⟨heb, hea⟩, ⟨hbb, hba⟩, ⟨hpb, hpa⟩,
    ?_, ?_, ?_, ?_, ?_, ?_, ?_, ?_⟩
  · rw [hvb]; exact intRange_nodup _
  · rw [heb]; exact intRange_nodup _
  · rw [hbb]; exact intRange_nodup _
  · rw [hpb]; exact intRange_nodup _
  · intro v hv
    exact add_vertex_of_nonneg (hvn v hv)
  · intro e he
    obtain ⟨g0, g1⟩ := hedge e he
    exact add_edge_of_nonneg edgeData g0 g1 (hen e he)
  · intro p hp
    exact add_patch_of_nonneg (hpn p hp)
  · intro b hb hk
    obtain ⟨gv, ge⟩ := hblock b hb
    rw [add_block, if_neg (by simp [hk])]
    have h1 : (blockData b).vertices.foldl add_vertex s = s :=
      foldl_add_vertex_of_nonneg gv
    have h2 : (blockData b).edges.foldl (add_edge edgeData) s = s := by
      apply foldl_add_edge_of_nonneg
      intro e he'
      by_cases ht : (edgeData e).type = none
      · exact Or.inl ht
      · obtain ⟨a1, a2, a3⟩ := ge e he' ht
        exact Or.inr ⟨a1, a2, a3⟩
    simp only []
    rw [h1, h2, if_neg (by have := hbn b hb; omega)]

/-- C6 witness: the invariant evaluated on a concrete call sequence —
vertex identities are `0 .. 2` in order and re-adding vertex 4 or edge 0 is
a no-op. -/
theorem mesh_identity_registration_witness :
    ((run c1Kind c1EdgeData c1BlockData meshInit c6Ops).vertices.map
        (run c1Kind c1EdgeData c1BlockData meshInit c6Ops).objId
      = intRange (run c1Kind c1EdgeData c1BlockData meshInit c6Ops).vertices.length)
    ∧ add_vertex (run c1Kind c1EdgeData c1BlockData meshInit c6Ops) 4
        = run c1Kind c1EdgeData c1BlockData meshInit c6Ops
    ∧ add_edge c1EdgeData (run c1Kind c1EdgeData c1BlockData meshInit c6Ops) 0
        = run c1Kind c1EdgeData c1BlockData meshInit c6Ops := by
  have h := mesh_identity_registration c1Kind c1EdgeData c1BlockData c6Ops _ rfl
  exact ⟨h.1.1, h.2.2.2.2.2.2.2.2.1 4 (by decide),
    h.2.2.2.2.2.2.2.2.2.1 0 (by decide)⟩

end Tetris

